import Mathlib

/-!
Verification of the `angular-voice` audio recorder against its specification.

The development embeds the two cores of the repository:

* `encodeWavFromPcm` — the pure PCM-Float32 → WAV byte-buffer encoder of
  `AudioRecorderService.encodeWavFromPcm` (identical in both historical
  variants of the service).  Samples are modelled as rationals; the
  quantisation step mirrors the JavaScript semantics of
  `Int16Array` assignment (truncation toward zero, then 16-bit wrap) and the
  byte emission mirrors `DataView.setUint16/setUint32` little-endian writes
  and the `& 0xff` / `>> 8` sample-byte stores.

* the service state machine — `prepare` / `start` / `stop` and the cleanup
  helpers, with browser capabilities (`isPlatformBrowser`, `getUserMedia`,
  `MediaRecorder.isTypeSupported`, `AudioContext` sample-rate negotiation)
  abstracted into an environment record.  Callback-driven sample/chunk
  delivery is modelled as explicit transitions.
-/

namespace AngularVoice

/-! ## The PCM → WAV encoder -/

/-- JavaScript `ToInteger` truncation toward zero, on rationals. -/
def ratTrunc (q : ℚ) : ℤ := if q < 0 then ⌈q⌉ else ⌊q⌋

/-- `Math.max(-1, Math.min(1, x))`. -/
def clampUnit (x : ℚ) : ℚ := max (-1) (min 1 x)

/-- The scaled value `s < 0 ? s * 0x8000 : s * 0x7fff` (with `s` the clamped
sample), truncated toward zero as the first half of `Int16Array` coercion. -/
def quantizeScaled (x : ℚ) : ℤ :=
  if clampUnit x < 0 then ratTrunc (clampUnit x * 32768)
  else ratTrunc (clampUnit x * 32767)

/-- Wrap into 16-bit two-complement range, the second half of the
`Int16Array` coercion. -/
def toInt16 (n : ℤ) : ℤ := (n + 32768) % 65536 - 32768

/-- The value stored into `pcm16[i]` for input sample `x`. -/
def quantizeSample (x : ℚ) : ℤ := toInt16 (quantizeScaled x)

/-- `DataView.setUint16(_, v, true)`: two little-endian bytes (wraps mod 2^16). -/
def u16le (v : ℕ) : List ℕ := [v % 256, v / 256 % 256]

/-- `DataView.setUint32(_, v, true)`: four little-endian bytes (wraps mod 2^32). -/
def u32le (v : ℕ) : List ℕ :=
  [v % 256, v / 256 % 256, v / 65536 % 256, v / 16777216 % 256]

/-- The two bytes `[v & 0xff, (v >> 8) & 0xff]` stored for a signed 16-bit
sample value. -/
def i16le (v : ℤ) : List ℕ := u16le ((v % 65536).toNat)

/-- Bytes written by `writeStr` (ASCII char codes). -/
def strBytes (s : String) : List ℕ := s.data.map Char.toNat

/-- `AudioRecorderService.encodeWavFromPcm`: concatenate the sample blocks,
quantize to 16-bit PCM, and emit the 44-byte RIFF/WAVE header followed by the
little-endian samples.  `blockAlign = 1 * 16 / 8 = 2`, `byteRate =
sampleRate * blockAlign`, `dataSize = pcm16.length * 2`. -/
def encodeWavFromPcm (buffers : List (List ℚ)) (sampleRate : ℕ) : List ℕ :=
  let interleaved := buffers.flatten
  let pcm16 := interleaved.map quantizeSample
  let blockAlign := 2
  let byteRate := sampleRate * blockAlign
  let dataSize := pcm16.length * 2
  strBytes "RIFF" ++ u32le (36 + dataSize) ++
  strBytes "WAVE" ++ strBytes "fmt " ++
  u32le 16 ++ u16le 1 ++ u16le 1 ++
  u32le sampleRate ++ u32le byteRate ++
  u16le blockAlign ++ u16le 16 ++
  strBytes "data" ++ u32le dataSize ++
  (pcm16.map i16le).flatten

/-! Header-field readers, used to state what a decoder recovers. -/

/-- Read a little-endian 16-bit field at byte offset `off`. -/
def readU16le (l : List ℕ) (off : ℕ) : ℕ :=
  l.getD off 0 + 256 * l.getD (off + 1) 0

/-- Read a little-endian 32-bit field at byte offset `off`. -/
def readU32le (l : List ℕ) (off : ℕ) : ℕ :=
  l.getD off 0 + 256 * l.getD (off + 1) 0 +
  65536 * l.getD (off + 2) 0 + 16777216 * l.getD (off + 3) 0

/-! ## The recorder service state machine

`AudioRecorderService` from `recorder-service.ts`.  Browser capabilities are
abstracted into an `Env`: platform check, `getUserMedia` outcome,
`MediaRecorder.isTypeSupported`, and the `AudioContext` sample-rate
negotiation (`new AudioContext({sampleRate}).sampleRate`).  Asynchronous
sample/chunk delivery callbacks become explicit `deliver*` transitions.
A thrown error is returned alongside the state reached when it is thrown,
so partial mutation (or its absence) is observable. -/

/-- The `RecorderFormat` union type. -/
inductive RecorderFormat where
  | webm
  | wav
deriving DecidableEq

/-- Errors the service can surface. -/
inductive RecErr where
  | notInBrowserContext
  | permissionDenied
deriving DecidableEq

/-- The slice of a `MediaRecorder` the service observes. -/
structure MediaRecorderHandle where
  mimeType : String
deriving DecidableEq

/-- Host environment capabilities. -/
structure Env where
  isBrowser : Bool
  userMedia : Option ℕ
  supportsMime : String → Bool
  negotiate : Option ℕ → ℕ

/-- Private fields of the service. -/
structure ServiceState where
  mediaStream : Option ℕ
  mediaRecorder : Option MediaRecorderHandle
  chunks : List (List ℕ)
  startTs : ℚ
  audioCtx : Option ℕ
  sourceNode : Bool
  processorNode : Bool
  tapAttached : Bool
  pcmBuffers : List (List ℚ)
  sampleRate : ℕ

/-- Field initialisers of a fresh service instance. -/
def initState : ServiceState :=
  { mediaStream := none, mediaRecorder := none, chunks := [], startTs := 0,
    audioCtx := none, sourceNode := false, processorNode := false,
    tapAttached := false, pcmBuffers := [], sampleRate := 48000 }

/-- `pickWebmMime`: first supported candidate, defaulting to `audio/webm`. -/
def pickWebmMime (env : Env) : String :=
  if env.supportsMime "audio/webm;codecs=opus" then "audio/webm;codecs=opus"
  else if env.supportsMime "audio/webm" then "audio/webm"
  else if env.supportsMime "audio/webm;codecs=pcm" then "audio/webm;codecs=pcm"
  else "audio/webm"

/-- `prepare()`: acquire the microphone stream unless outside the browser or
already held. -/
def prepare (env : Env) (s : ServiceState) : ServiceState × Option RecErr :=
  if ¬ env.isBrowser then (s, none)
  else if s.mediaStream.isSome then (s, none)
  else
    match env.userMedia with
    | some id => ({ s with mediaStream := some id }, none)
    | none => (s, some .permissionDenied)

/-- `start(format, desiredSampleRate?)`.  Throws `NotInBrowserContext`
outside the browser, runs `prepare()`, resets the fragment buffers and start
timestamp, then either creates a `MediaRecorder` (webm path) or opens the
audio graph and records the negotiated sample rate (wav path). -/
def start (env : Env) (format : RecorderFormat) (dsr : Option ℕ) (now : ℚ)
    (s : ServiceState) : ServiceState × Option RecErr :=
  if ¬ env.isBrowser then (s, some .notInBrowserContext)
  else
    match prepare env s with
    | (s₁, some e) => (s₁, some e)
    | (s₁, none) =>
      let s₂ := { s₁ with chunks := [], pcmBuffers := [], startTs := now }
      if format = .webm ∧ env.supportsMime "audio/webm" = true then
        ({ s₂ with mediaRecorder := some ⟨pickWebmMime env⟩ }, none)
      else
        let rate := env.negotiate dsr
        ({ s₂ with audioCtx := some rate, sampleRate := rate,
                   sourceNode := true, processorNode := true,
                   tapAttached := true }, none)

/-- `onaudioprocess` delivery of one raw sample block (wav path): the block
is copied and appended while the tap is attached. -/
def deliverPcm (b : List ℚ) (s : ServiceState) : ServiceState :=
  if s.tapAttached then { s with pcmBuffers := s.pcmBuffers ++ [b] } else s

/-- `ondataavailable` delivery of one encoded chunk (webm path): appended
while a recorder exists and the chunk is non-empty. -/
def deliverChunk (c : List ℕ) (s : ServiceState) : ServiceState :=
  if s.mediaRecorder.isSome ∧ c ≠ [] then { s with chunks := s.chunks ++ [c] }
  else s

/-- `cleanupMediaRecorder()`: drop the recorder handle and chunk buffer;
the stream is deliberately kept alive. -/
def cleanupMediaRecorder (s : ServiceState) : ServiceState :=
  { s with mediaRecorder := none, chunks := [] }

/-- `cleanupWav()`: disconnect and drop the audio graph and the sample
buffers (teardown errors are swallowed in the source). -/
def cleanupWav (s : ServiceState) : ServiceState :=
  { s with processorNode := false, sourceNode := false, audioCtx := none,
           tapAttached := false, pcmBuffers := [] }

/-- The value produced once per completed session (the `File` wrapper holds
the same bytes as the blob and is not modelled separately). -/
structure RecordingResult where
  blobBytes : List ℕ
  durationMs : ℚ
  mimeType : String
deriving DecidableEq

/-- `stop(format)`.  With the webm format requested and a live recorder
handle,
finalize the compressed recording; otherwise take the WAV path: encode the
accumulated PCM at the recorded sample rate.  There is no state-precondition
check and no failure path. -/
def stop (format : RecorderFormat) (now : ℚ) (s : ServiceState) :
    ServiceState × RecordingResult :=
  let durationMs := now - s.startTs
  match format, s.mediaRecorder with
  | .webm, some rec =>
    let mt := if rec.mimeType = "" then "audio/webm" else rec.mimeType
    (cleanupMediaRecorder s, ⟨s.chunks.flatten, durationMs, mt⟩)
  | _, _ =>
    (cleanupWav s,
      ⟨encodeWavFromPcm s.pcmBuffers s.sampleRate, durationMs, "audio/wav"⟩)

/-! Basic facts about clamping and quantisation. -/

lemma clampUnit_of_one_le {x : ℚ} (h : 1 ≤ x) : clampUnit x = 1 := by
  rw [clampUnit, min_eq_left h, max_eq_right (by norm_num : (-1 : ℚ) ≤ 1)]

lemma clampUnit_of_le_neg_one {x : ℚ} (h : x ≤ -1) : clampUnit x = -1 := by
  rw [clampUnit, min_eq_right (le_trans h (by norm_num)), max_eq_left h]

lemma neg_one_le_clampUnit (x : ℚ) : -1 ≤ clampUnit x := le_max_left _ _

lemma clampUnit_le_one (x : ℚ) : clampUnit x ≤ 1 :=
  max_le (by norm_num) (min_le_left _ _)

lemma clampUnit_idem (x : ℚ) : clampUnit (clampUnit x) = clampUnit x := by
  rw [clampUnit, clampUnit]
  rcases le_total 1 x with h | h
  · rw [min_eq_left h, max_eq_right (by norm_num : (-1 : ℚ) ≤ 1),
      min_eq_left (le_refl 1), max_eq_right (by norm_num : (-1 : ℚ) ≤ 1)]
  · rw [min_eq_right h]
    rcases le_total x (-1) with h2 | h2
    · rw [max_eq_left h2, min_eq_right (by norm_num : (-1 : ℚ) ≤ 1),
        max_eq_left (le_refl (-1))]
    · rw [max_eq_right h2, min_eq_right h, max_eq_right h2]

lemma quantizeSample_one : quantizeSample 1 = 32767 := by
  have hc : clampUnit (1 : ℚ) = 1 := clampUnit_of_one_le le_rfl
  rw [quantizeSample, quantizeScaled, hc]
  norm_num [ratTrunc, toInt16]

lemma quantizeSample_neg_one : quantizeSample (-1) = -32768 := by
  have hc : clampUnit (-1 : ℚ) = -1 := clampUnit_of_le_neg_one le_rfl
  rw [quantizeSample, quantizeScaled, hc]
  norm_num [ratTrunc, toInt16, Int.ceil_neg]

lemma quantizeScaled_lower (x : ℚ) : -32768 ≤ quantizeScaled x := by
  rw [quantizeScaled]
  split
  · next h =>
    rw [ratTrunc, if_pos (by nlinarith [neg_one_le_clampUnit x])]
    calc (-32768 : ℤ) = ⌈(-32768 : ℚ)⌉ := by
            rw [Int.ceil_neg]; norm_num
      _ ≤ ⌈clampUnit x * 32768⌉ := by
            apply Int.ceil_le_ceil
            nlinarith [neg_one_le_clampUnit x]
  · next h =>
    have h0 : (0 : ℚ) ≤ clampUnit x := le_of_not_lt h
    rw [ratTrunc, if_neg (by nlinarith)]
    have : (0 : ℤ) ≤ ⌊clampUnit x * 32767⌋ := Int.floor_nonneg.mpr (by nlinarith)
    omega

lemma quantizeScaled_upper (x : ℚ) : quantizeScaled x ≤ 32767 := by
  rw [quantizeScaled]
  split
  · next h =>
    rw [ratTrunc, if_pos (by nlinarith [neg_one_le_clampUnit x])]
    have : ⌈clampUnit x * 32768⌉ ≤ ⌈(0 : ℚ)⌉ := Int.ceil_le_ceil (by nlinarith)
    simp only [Int.ceil_zero] at this
    omega
  · next h =>
    have h0 : (0 : ℚ) ≤ clampUnit x := le_of_not_lt h
    rw [ratTrunc, if_neg (by nlinarith)]
    calc ⌊clampUnit x * 32767⌋ ≤ ⌊(32767 : ℚ)⌋ := by
          apply Int.floor_le_floor
          nlinarith [clampUnit_le_one x]
      _ = 32767 := Int.floor_ofNat _

lemma toInt16_eq_self {n : ℤ} (h1 : -32768 ≤ n) (h2 : n ≤ 32767) :
    toInt16 n = n := by
  rw [toInt16]; omega

/-- The `Int16Array` wrap is the identity on every quantised sample. -/
lemma quantizeSample_eq_scaled (x : ℚ) : quantizeSample x = quantizeScaled x :=
  toInt16_eq_self (quantizeScaled_lower x) (quantizeScaled_upper x)

/-- Quantisation only sees the clamped sample. -/
lemma quantizeSample_clampUnit (x : ℚ) :
    quantizeSample (clampUnit x) = quantizeSample x := by
  rw [quantizeSample, quantizeSample, quantizeScaled, quantizeScaled,
    clampUnit_idem]

example : strBytes "RIFF" = [82, 73, 70, 70] := rfl
example : (encodeWavFromPcm [] 48000).length = 44 := by decide

/-! Structure of the emitted buffer: a 44-byte header followed by the
little-endian 16-bit samples. -/

/-- The 44 header bytes for sample rate `R` and data size `d`. -/
def wavHeader (R d : ℕ) : List ℕ :=
  strBytes "RIFF" ++ u32le (36 + d) ++ strBytes "WAVE" ++ strBytes "fmt " ++
  u32le 16 ++ u16le 1 ++ u16le 1 ++ u32le R ++ u32le (R * 2) ++
  u16le 2 ++ u16le 16 ++ strBytes "data" ++ u32le d

lemma wavHeader_length (R d : ℕ) : (wavHeader R d).length = 44 := rfl

lemma encodeWav_eq (buffers : List (List ℚ)) (R : ℕ) :
    encodeWavFromPcm buffers R =
      wavHeader R (buffers.flatten.length * 2) ++
      ((buffers.flatten.map quantizeSample).map i16le).flatten := by
  simp only [encodeWavFromPcm, wavHeader, List.length_map]

lemma flatten_i16le_length (l : List ℤ) :
    ((l.map i16le).flatten).length = l.length * 2 := by
  induction l with
  | nil => rfl
  | cons a t ih =>
    simp only [List.map_cons, List.flatten_cons, List.length_append, ih,
      List.length_cons, List.length_nil, i16le, u16le]
    omega

lemma encodeWav_length (buffers : List (List ℚ)) (R : ℕ) :
    (encodeWavFromPcm buffers R).length = 44 + buffers.flatten.length * 2 := by
  rw [encodeWav_eq, List.length_append, wavHeader_length, flatten_i16le_length,
    List.length_map]

lemma le32_bytes_eq (v : ℕ) (hv : v < 4294967296) :
    v % 256 + 256 * (v / 256 % 256) + 65536 * (v / 65536 % 256) +
      16777216 * (v / 16777216 % 256) = v := by
  omega

lemma strBytes_RIFF : strBytes "RIFF" = [82, 73, 70, 70] := rfl
lemma strBytes_WAVE : strBytes "WAVE" = [87, 65, 86, 69] := rfl
lemma strBytes_fmt : strBytes "fmt " = [102, 109, 116, 32] := rfl
lemma strBytes_data : strBytes "data" = [100, 97, 116, 97] := rfl

lemma wavHeader_cons (R d : ℕ) :
    wavHeader R d =
      [82, 73, 70, 70,
       (36 + d) % 256, (36 + d) / 256 % 256, (36 + d) / 65536 % 256,
       (36 + d) / 16777216 % 256,
       87, 65, 86, 69, 102, 109, 116, 32,
       16, 0, 0, 0, 1, 0, 1, 0,
       R % 256, R / 256 % 256, R / 65536 % 256, R / 16777216 % 256,
       R * 2 % 256, R * 2 / 256 % 256, R * 2 / 65536 % 256,
       R * 2 / 16777216 % 256,
       2, 0, 16, 0, 100, 97, 116, 97,
       d % 256, d / 256 % 256, d / 65536 % 256, d / 16777216 % 256] := by
  rw [wavHeader, strBytes_RIFF, strBytes_WAVE, strBytes_fmt, strBytes_data]
  simp only [u32le, u16le, List.cons_append, List.nil_append]

lemma readU32le_header_4 (R d : ℕ) (data : List ℕ) :
    readU32le (wavHeader R d ++ data) 4 =
      (36 + d) % 256 + 256 * ((36 + d) / 256 % 256) +
      65536 * ((36 + d) / 65536 % 256) +
      16777216 * ((36 + d) / 16777216 % 256) := by
  rw [wavHeader_cons]; rfl

lemma readU32le_header_24 (R d : ℕ) (data : List ℕ) :
    readU32le (wavHeader R d ++ data) 24 =
      R % 256 + 256 * (R / 256 % 256) + 65536 * (R / 65536 % 256) +
      16777216 * (R / 16777216 % 256) := by
  rw [wavHeader_cons]; rfl

lemma readU32le_header_28 (R d : ℕ) (data : List ℕ) :
    readU32le (wavHeader R d ++ data) 28 =
      R * 2 % 256 + 256 * (R * 2 / 256 % 256) + 65536 * (R * 2 / 65536 % 256) +
      16777216 * (R * 2 / 16777216 % 256) := by
  rw [wavHeader_cons]; rfl

lemma readU32le_header_40 (R d : ℕ) (data : List ℕ) :
    readU32le (wavHeader R d ++ data) 40 =
      d % 256 + 256 * (d / 256 % 256) + 65536 * (d / 65536 % 256) +
      16777216 * (d / 16777216 % 256) := by
  rw [wavHeader_cons]; rfl

lemma flatten_nil_of_all_nil {buffers : List (List ℚ)}
    (h : ∀ b ∈ buffers, b = []) : buffers.flatten = [] := by
  induction buffers with
  | nil => rfl
  | cons a t ih =>
    rw [List.flatten_cons, h a (List.mem_cons_self a t),
      ih fun b hb => h b (List.mem_cons_of_mem a hb), List.nil_append]

/-- Two inputs whose concatenated samples quantise identically encode to the
same bytes. -/
lemma encode_congr (b c : List (List ℚ)) (R : ℕ)
    (h : b.flatten.map quantizeSample = c.flatten.map quantizeSample) :
    encodeWavFromPcm b R = encodeWavFromPcm c R := by
  have hl : b.flatten.length = c.flatten.length := by
    have := congrArg List.length h
    simpa only [List.length_map] using this
  rw [encodeWav_eq, encodeWav_eq, h, hl]

lemma quantizeSample_of_one_le {x : ℚ} (h : 1 ≤ x) :
    quantizeSample x = 32767 := by
  rw [← quantizeSample_clampUnit x, clampUnit_of_one_le h, quantizeSample_one]

lemma quantizeSample_of_le_neg_one {x : ℚ} (h : x ≤ -1) :
    quantizeSample x = -32768 := by
  rw [← quantizeSample_clampUnit x, clampUnit_of_le_neg_one h,
    quantizeSample_neg_one]

lemma encode_data_section (buffers : List (List ℚ)) (R : ℕ) :
    (encodeWavFromPcm buffers R).drop 44 =
      ((buffers.flatten.map quantizeSample).map i16le).flatten := by
  rw [encodeWav_eq, wavHeader_cons]; rfl

/-! Facts about the service state machine. -/

lemma deliverPcm_sampleRate (b : List ℚ) (st : ServiceState) :
    (deliverPcm b st).sampleRate = st.sampleRate := by
  rw [deliverPcm]; split <;> rfl

lemma deliverPcm_mediaRecorder (b : List ℚ) (st : ServiceState) :
    (deliverPcm b st).mediaRecorder = st.mediaRecorder := by
  rw [deliverPcm]; split <;> rfl

lemma foldl_deliverPcm_sampleRate (blocks : List (List ℚ)) (st : ServiceState) :
    (List.foldl (fun st b => deliverPcm b st) st blocks).sampleRate =
      st.sampleRate := by
  induction blocks generalizing st with
  | nil => rfl
  | cons b t ih => rw [List.foldl_cons, ih, deliverPcm_sampleRate]

lemma foldl_deliverPcm_mediaRecorder (blocks : List (List ℚ))
    (st : ServiceState) :
    (List.foldl (fun st b => deliverPcm b st) st blocks).mediaRecorder =
      st.mediaRecorder := by
  induction blocks generalizing st with
  | nil => rfl
  | cons b t ih => rw [List.foldl_cons, ih, deliverPcm_mediaRecorder]

/-- Without a recorder handle, `stop` always takes the WAV path. -/
lemma stop_wav_path (format : RecorderFormat) (t : ℚ) (s : ServiceState)
    (h : s.mediaRecorder = none) :
    stop format t s =
      (cleanupWav s,
        ⟨encodeWavFromPcm s.pcmBuffers s.sampleRate, t - s.startTs,
         "audio/wav"⟩) := by
  cases format <;> simp [stop, h]

lemma encode_rate_field (buffers : List (List ℚ)) (R : ℕ)
    (h : R * 2 < 4294967296) :
    readU32le (encodeWavFromPcm buffers R) 24 = R := by
  rw [encodeWav_eq, readU32le_header_24]; omega

/-- On the wav path, a successful `start` records the negotiated rate and
creates no recorder handle. -/
lemma start_wav_fields (env : Env) (format : RecorderFormat) (dsr : Option ℕ)
    (t0 : ℚ) (s : ServiceState) (hb : env.isBrowser = true) (u : ℕ)
    (hu : env.userMedia = some u) (hrec : s.mediaRecorder = none)
    (hpath : format = .wav ∨ env.supportsMime "audio/webm" = false) :
    ((start env format dsr t0 s).1).sampleRate = env.negotiate dsr ∧
    ((start env format dsr t0 s).1).mediaRecorder = none ∧
    (start env format dsr t0 s).2 = none := by
  have hcond : ¬ (format = RecorderFormat.webm ∧
      env.supportsMime "audio/webm" = true) := by
    rcases hpath with h | h
    · rintro ⟨hw, -⟩; rw [h] at hw; exact RecorderFormat.noConfusion hw
    · rintro ⟨-, hs⟩; rw [h] at hs; exact Bool.noConfusion hs
  by_cases hs : s.mediaStream.isSome
  · simp [start, prepare, hb, hs, hcond, hrec]
  · simp [start, prepare, hb, hs, hu, hcond, hrec]

lemma start_mediaStream (env : Env) (f : RecorderFormat) (d : Option ℕ)
    (t : ℚ) (s : ServiceState) :
    ((start env f d t s).1).mediaStream = ((prepare env s).1).mediaStream := by
  cases hb : env.isBrowser
  · simp [start, prepare, hb]
  · rcases hp : prepare env s with ⟨s₁, e⟩
    cases e
    · simp only [start, hb, hp]
      split
      · next h => exact absurd trivial h
      · split <;> rfl
    · simp [start, hb, hp]

lemma prepare_start_stable (env : Env) (f : RecorderFormat) (d : Option ℕ)
    (t : ℚ) (s : ServiceState) :
    ((prepare env ((start env f d t s).1)).1).mediaStream =
      ((start env f d t s).1).mediaStream := by
  cases hb : env.isBrowser
  · simp [start, prepare, hb]
  · cases hum : env.userMedia <;> cases hms : s.mediaStream <;>
      simp [start, prepare, hb, hum, hms] <;>
      split <;> simp [prepare, hb, hum, hms]

/-! ## Claim theorems -/

/-- C1: for every sequence of sample blocks and every sample rate whose
derived 32-bit fields fit (`R*2 < 2^32` and `36 + dataSize < 2^32`), the
encoder output opens with the 44-byte canonical header — `RIFF`, the
`36 + dataSize` file-size-minus-8 field, `WAVE`, `fmt ` with sub-chunk size
16, format code 1, one channel, sample rate `R`, byte rate `R*2`, block
align 2, 16 bits per sample, then `data` and `dataSize = 2·sampleCount` —
all multi-byte fields little-endian, and the quantised samples follow as
little-endian 16-bit integers. -/
theorem wav_header_layout (buffers : List (List ℚ)) (R : ℕ)
    (hR : R * 2 < 4294967296)
    (hd : 36 + buffers.flatten.length * 2 < 4294967296) :
    (encodeWavFromPcm buffers R).length = 44 + buffers.flatten.length * 2 ∧
    (encodeWavFromPcm buffers R).take 4 = strBytes "RIFF" ∧
    readU32le (encodeWavFromPcm buffers R) 4 =
      36 + buffers.flatten.length * 2 ∧
    ((encodeWavFromPcm buffers R).drop 8).take 4 = strBytes "WAVE" ∧
    ((encodeWavFromPcm buffers R).drop 12).take 4 = strBytes "fmt " ∧
    readU32le (encodeWavFromPcm buffers R) 16 = 16 ∧
    readU16le (encodeWavFromPcm buffers R) 20 = 1 ∧
    readU16le (encodeWavFromPcm buffers R) 22 = 1 ∧
    readU32le (encodeWavFromPcm buffers R) 24 = R ∧
    readU32le (encodeWavFromPcm buffers R) 28 = R * 2 ∧
    readU16le (encodeWavFromPcm buffers R) 32 = 2 ∧
    readU16le (encodeWavFromPcm buffers R) 34 = 16 ∧
    ((encodeWavFromPcm buffers R).drop 36).take 4 = strBytes "data" ∧
    readU32le (encodeWavFromPcm buffers R) 40 = buffers.flatten.length * 2 ∧
    (encodeWavFromPcm buffers R).drop 44 =
      ((buffers.flatten.map quantizeSample).map i16le).flatten := by
  refine ⟨encodeWav_length _ _, ?_, ?_, ?_, ?_, ?_, ?_, ?_, ?_, ?_, ?_, ?_,
    ?_, ?_, encode_data_section _ _⟩
  · rw [encodeWav_eq, wavHeader_cons, strBytes_RIFF]; rfl
  · rw [encodeWav_eq, readU32le_header_4]; omega
  · rw [encodeWav_eq, wavHeader_cons, strBytes_WAVE]; rfl
  · rw [encodeWav_eq, wavHeader_cons, strBytes_fmt]; rfl
  · rw [encodeWav_eq, wavHeader_cons]; rfl
  · rw [encodeWav_eq, wavHeader_cons]; rfl
  · rw [encodeWav_eq, wavHeader_cons]; rfl
  · rw [encodeWav_eq, readU32le_header_24]; omega
  · rw [encodeWav_eq, readU32le_header_28]; omega
  · rw [encodeWav_eq, wavHeader_cons]; rfl
  · rw [encodeWav_eq, wavHeader_cons]; rfl
  · rw [encodeWav_eq, wavHeader_cons, strBytes_data]; rfl
  · rw [encodeWav_eq, readU32le_header_40]; omega

/-- Witness for C1 at `buffers = [[1]]`, `R = 8000`. -/
theorem wav_header_layout_witness :
    8000 * 2 < 4294967296 ∧
    36 + ([[(1 : ℚ)]] : List (List ℚ)).flatten.length * 2 < 4294967296 ∧
    readU32le (encodeWavFromPcm [[(1 : ℚ)]] 8000) 24 = 8000 := by
  have h := wav_header_layout [[(1 : ℚ)]] 8000 (by norm_num) (by decide)
  exact ⟨by norm_num, by decide, h.2.2.2.2.2.2.2.2.1⟩

/-- C2: quantisation clamps to [-1, 1] before scaling (negative samples by
32768, non-negative by 32767, truncating), so a sample of 2.0 encodes as
32767 exactly like 1.0, and -5.0 encodes as -32768 exactly like -1.0; the
whole encoder output agrees on such inputs. -/
theorem quantize_clamp_then_scale :
    (∀ x : ℚ, quantizeSample x = quantizeSample (clampUnit x)) ∧
    quantizeSample 2 = 32767 ∧ quantizeSample 1 = 32767 ∧
    quantizeSample (-5) = -32768 ∧ quantizeSample (-1) = -32768 ∧
    (∀ R : ℕ, encodeWavFromPcm [[2]] R = encodeWavFromPcm [[1]] R) ∧
    (∀ R : ℕ, encodeWavFromPcm [[-5]] R = encodeWavFromPcm [[-1]] R) := by
  have h2 : quantizeSample 2 = 32767 :=
    quantizeSample_of_one_le (by norm_num)
  have h5 : quantizeSample (-5) = -32768 :=
    quantizeSample_of_le_neg_one (by norm_num)
  refine ⟨fun x => (quantizeSample_clampUnit x).symm, h2, quantizeSample_one,
    h5, quantizeSample_neg_one, fun R => ?_, fun R => ?_⟩
  · exact encode_congr _ _ _ (by simp [h2, quantizeSample_one])
  · exact encode_congr _ _ _ (by simp [h5, quantizeSample_neg_one])

/-- C3: the encoder is a homomorphism for block concatenation — encoding
`[A, B]` equals encoding the pre-concatenated `[A ++ B]` byte for byte, and
the logical sample sequence of `[A, B]` has length `|A| + |B|`. -/
theorem encode_concat_hom (A B : List ℚ) (R : ℕ) :
    encodeWavFromPcm [A, B] R = encodeWavFromPcm [A ++ B] R ∧
    ([A, B] : List (List ℚ)).flatten.length = A.length + B.length := by
  constructor
  · exact encode_congr _ _ _ (by simp)
  · simp

/-- C4: with no samples (no blocks, or only zero-length blocks) the encoder
still returns exactly 44 bytes carrying the `RIFF`/`WAVE`/`data` tags, a
file-size field of 36, and a `data` chunk-size field of 0. -/
theorem encode_empty_input (buffers : List (List ℚ)) (R : ℕ)
    (h : ∀ b ∈ buffers, b = []) :
    (encodeWavFromPcm buffers R).length = 44 ∧
    (encodeWavFromPcm buffers R).take 4 = strBytes "RIFF" ∧
    ((encodeWavFromPcm buffers R).drop 8).take 4 = strBytes "WAVE" ∧
    ((encodeWavFromPcm buffers R).drop 36).take 4 = strBytes "data" ∧
    readU32le (encodeWavFromPcm buffers R) 4 = 36 ∧
    readU32le (encodeWavFromPcm buffers R) 40 = 0 := by
  have hf := flatten_nil_of_all_nil h
  refine ⟨?_, ?_, ?_, ?_, ?_, ?_⟩
  · rw [encodeWav_length, hf]; rfl
  · rw [encodeWav_eq, wavHeader_cons, strBytes_RIFF]; rfl
  · rw [encodeWav_eq, wavHeader_cons, strBytes_WAVE]; rfl
  · rw [encodeWav_eq, wavHeader_cons, strBytes_data]; rfl
  · rw [encodeWav_eq, readU32le_header_4, hf]; norm_num
  · rw [encodeWav_eq, readU32le_header_40, hf]; norm_num

/-- Witness for C4 at `buffers = [[], []]`, `R = 96000`. -/
theorem encode_empty_input_witness :
    (∀ b ∈ ([[], []] : List (List ℚ)), b = []) ∧
    (encodeWavFromPcm ([[], []] : List (List ℚ)) 96000).length = 44 ∧
    readU32le (encodeWavFromPcm ([[], []] : List (List ℚ)) 96000) 40 = 0 := by
  have hb : ∀ b ∈ ([[], []] : List (List ℚ)), b = [] := by simp
  have h := encode_empty_input [[], []] 96000 hb
  exact ⟨hb, h.1, h.2.2.2.2.2⟩

/-- C10: every quantised 16-bit value the encoder stores lies in
[-32768, 32767]; clamping precedes scaling, so the `Int16Array` wrap never
fires (the wrapped value equals the unwrapped one) and the data section is
exactly these in-range values in little-endian byte pairs. -/
theorem quantize_in_range (buffers : List (List ℚ)) (R : ℕ) (v : ℤ)
    (hv : v ∈ buffers.flatten.map quantizeSample) :
    (-32768 ≤ v ∧ v ≤ 32767) ∧ toInt16 v = v ∧
    (encodeWavFromPcm buffers R).drop 44 =
      ((buffers.flatten.map quantizeSample).map i16le).flatten := by
  obtain ⟨x, hx, rfl⟩ := List.mem_map.mp hv
  rw [quantizeSample_eq_scaled]
  exact ⟨⟨quantizeScaled_lower x, quantizeScaled_upper x⟩,
    toInt16_eq_self (quantizeScaled_lower x) (quantizeScaled_upper x),
    encode_data_section _ _⟩

/-- Witness for C10 at `buffers = [[2]]`, `R = 44100`, `v = 32767`. -/
theorem quantize_in_range_witness :
    (32767 : ℤ) ∈ ([[(2 : ℚ)]] : List (List ℚ)).flatten.map quantizeSample ∧
    (-32768 ≤ (32767 : ℤ) ∧ (32767 : ℤ) ≤ 32767) := by
  have h2 : quantizeSample 2 = 32767 :=
    quantizeSample_of_one_le (by norm_num)
  have hv : (32767 : ℤ) ∈
      ([[(2 : ℚ)]] : List (List ℚ)).flatten.map quantizeSample := by
    simp [h2]
  exact ⟨hv, (quantize_in_range [[(2 : ℚ)]] 44100 32767 hv).1⟩

/-- C5 counterexample: calling `stop` on a fresh service with no prior
`start` does not fail — it returns a concrete `RecordingResult`, the 44-byte
empty WAV encoded at the default 48000 Hz, refuting the claimed
Capturing/Paused precondition. -/
theorem stop_before_start_returns_result :
    (stop RecorderFormat.webm 0 initState).2.mimeType = "audio/wav" ∧
    (stop RecorderFormat.webm 0 initState).2.blobBytes =
      encodeWavFromPcm [] 48000 ∧
    ((stop RecorderFormat.webm 0 initState).2.blobBytes).length = 44 := by
  refine ⟨rfl, rfl, ?_⟩
  rw [show (stop RecorderFormat.webm 0 initState).2.blobBytes =
      encodeWavFromPcm [] 48000 from rfl, encodeWav_length]
  rfl

/-- C5 (amended): `stop()` enforces no state precondition.  Called with no
prior `start()` in the session — for either requested format — it succeeds
and returns a `RecordingResult` wrapping the empty WAV encoded at the
default sample rate 48000, with mime type `audio/wav` and duration measured
from timestamp 0. -/
theorem stop_without_start (format : RecorderFormat) (now : ℚ) :
    (stop format now initState).2.blobBytes = encodeWavFromPcm [] 48000 ∧
    (stop format now initState).2.mimeType = "audio/wav" ∧
    (stop format now initState).2.durationMs = now := by
  cases format <;> exact ⟨rfl, rfl, by simp [stop, initState]⟩

/-- C6: whenever the raw-capture path is used for a start/deliver/stop
cycle, the sample-rate field of the produced WAV header is the rate the
audio subsystem negotiated at `start` — and, when the negotiated rate
differs from the rate the caller desired, the field is not the desired
rate. -/
theorem wav_uses_negotiated_rate (env : Env) (format : RecorderFormat)
    (dsr : Option ℕ) (t0 t1 : ℚ) (s : ServiceState) (blocks : List (List ℚ))
    (u : ℕ) (hb : env.isBrowser = true) (hu : env.userMedia = some u)
    (hrec : s.mediaRecorder = none)
    (hpath : format = .wav ∨ env.supportsMime "audio/webm" = false)
    (hfit : env.negotiate dsr * 2 < 4294967296) :
    readU32le ((stop format t1
        (List.foldl (fun st b => deliverPcm b st)
          (start env format dsr t0 s).1 blocks)).2.blobBytes) 24 =
      env.negotiate dsr ∧
    (∀ dv : ℕ, dsr = some dv → env.negotiate dsr ≠ dv →
      readU32le ((stop format t1
          (List.foldl (fun st b => deliverPcm b st)
            (start env format dsr t0 s).1 blocks)).2.blobBytes) 24 ≠ dv) := by
  obtain ⟨hsr, hmr, -⟩ :=
    start_wav_fields env format dsr t0 s hb u hu hrec hpath
  have h2sr : (List.foldl (fun st b => deliverPcm b st)
      (start env format dsr t0 s).1 blocks).sampleRate =
      env.negotiate dsr := by
    rw [foldl_deliverPcm_sampleRate, hsr]
  have h2mr : (List.foldl (fun st b => deliverPcm b st)
      (start env format dsr t0 s).1 blocks).mediaRecorder = none := by
    rw [foldl_deliverPcm_mediaRecorder, hmr]
  have hmain : readU32le ((stop format t1
      (List.foldl (fun st b => deliverPcm b st)
        (start env format dsr t0 s).1 blocks)).2.blobBytes) 24 =
      env.negotiate dsr := by
    rw [stop_wav_path _ _ _ h2mr]
    rw [show (cleanupWav _,
        (⟨encodeWavFromPcm (List.foldl (fun st b => deliverPcm b st)
            (start env format dsr t0 s).1 blocks).pcmBuffers
          (List.foldl (fun st b => deliverPcm b st)
            (start env format dsr t0 s).1 blocks).sampleRate,
          t1 - (List.foldl (fun st b => deliverPcm b st)
            (start env format dsr t0 s).1 blocks).startTs,
          "audio/wav"⟩ : RecordingResult)).2.blobBytes =
        encodeWavFromPcm (List.foldl (fun st b => deliverPcm b st)
            (start env format dsr t0 s).1 blocks).pcmBuffers
          (List.foldl (fun st b => deliverPcm b st)
            (start env format dsr t0 s).1 blocks).sampleRate from rfl]
    rw [h2sr]
    exact encode_rate_field _ _ hfit
  exact ⟨hmain, fun dv hdv hne => by rw [hmain]; exact hne⟩

/-- Witness for C6: a browser environment that negotiates 44100 when asked
for 22050; the rate field of the header reads 44100. -/
theorem wav_uses_negotiated_rate_witness :
    readU32le ((stop RecorderFormat.wav 5
        (List.foldl (fun st b => deliverPcm b st)
          (start (Env.mk true (some 0) (fun _ => false) (fun _ => 44100))
            RecorderFormat.wav (some 22050) 1 initState).1 [])).2.blobBytes)
      24 = 44100 :=
  (wav_uses_negotiated_rate
    (Env.mk true (some 0) (fun _ => false) (fun _ => 44100))
    RecorderFormat.wav (some 22050) 1 5 initState [] 0 rfl rfl rfl
    (Or.inl rfl) (by norm_num)).1

/-- C7: `prepare()` is a no-op when a stream is already held, running it
twice equals running it once, and a second `start()` (which re-runs
`prepare`) leaves the acquired stream handle exactly as after the first
`start()` — the stream is acquired at most once. -/
theorem prepare_idempotent_claim :
    (∀ (env : Env) (s : ServiceState) (m : ℕ),
      s.mediaStream = some m → prepare env s = (s, none)) ∧
    (∀ (env : Env) (s : ServiceState),
      prepare env ((prepare env s).1) = prepare env s) ∧
    (∀ (env : Env) (f f' : RecorderFormat) (d d' : Option ℕ) (t t' : ℚ)
      (s : ServiceState),
      ((start env f' d' t' ((start env f d t s).1)).1).mediaStream =
        ((start env f d t s).1).mediaStream) := by
  refine ⟨?_, ?_, ?_⟩
  · intro env s m h
    cases hb : env.isBrowser <;> simp [prepare, hb, h]
  · intro env s
    cases hb : env.isBrowser
    · simp [prepare, hb]
    · cases hms : s.mediaStream <;> cases hum : env.userMedia <;>
        simp [prepare, hb, hms, hum]
  · intro env f f' d d' t t' s
    rw [start_mediaStream env f' d' t', prepare_start_stable]

/-- Witness for C7: a service already holding stream 7 is untouched by
`prepare`. -/
theorem prepare_idempotent_witness :
    ({ initState with mediaStream := some 7 } : ServiceState).mediaStream =
      some 7 ∧
    prepare (Env.mk true (some 0) (fun _ => false) (fun _ => 48000))
      { initState with mediaStream := some 7 } =
      ({ initState with mediaStream := some 7 }, none) :=
  ⟨rfl, prepare_idempotent_claim.1
    (Env.mk true (some 0) (fun _ => false) (fun _ => 48000))
    { initState with mediaStream := some 7 } 7 rfl⟩

/-- C8: invoked outside a browser context, `start` fails with
`NotInBrowserContext` and returns the state exactly as it was — the throw
precedes every mutation. -/
theorem start_outside_browser (env : Env) (f : RecorderFormat)
    (d : Option ℕ) (t : ℚ) (s : ServiceState) (h : env.isBrowser = false) :
    start env f d t s = (s, some RecErr.notInBrowserContext) := by
  simp [start, h]

/-- Witness for C8 in a non-browser environment. -/
theorem start_outside_browser_witness :
    (Env.mk false none (fun _ => false) (fun _ => 48000)).isBrowser = false ∧
    start (Env.mk false none (fun _ => false) (fun _ => 48000))
      RecorderFormat.webm none 0 initState =
      (initState, some RecErr.notInBrowserContext) :=
  ⟨rfl, start_outside_browser _ _ _ _ _ rfl⟩

/-- C9: the teardown done by `stop` — on both the compressed and the raw
path —
never releases the microphone stream: the held handle (and the start
timestamp and recorded rate) are unchanged by the call. -/
theorem stop_preserves_stream (format : RecorderFormat) (t : ℚ)
    (s : ServiceState) :
    ((stop format t s).1).mediaStream = s.mediaStream ∧
    ((stop format t s).1).startTs = s.startTs ∧
    ((stop format t s).1).sampleRate = s.sampleRate := by
  cases format <;> rcases hm : s.mediaRecorder with _ | r <;>
    simp [stop, hm, cleanupMediaRecorder, cleanupWav]

end AngularVoice
